import Mathlib

/-
Verification of the FedLearn in-browser training pipeline and the server
contribution endpoint, as a shallow embedding in Lean 4.

Embedded code:
  * `loadDataFromDirectory`, `createModel`, `trainModel` from
    ClientUI/src/utils/trainModel.ts.  External effects (image decoding,
    `tf`'s fit loop, the model (de)serializer of modelConverter, wall-clock
    time, `Math.random`) are supplied as oracle parameters; the control flow,
    data plumbing and arithmetic of the TypeScript module are reproduced
    exactly.
  * the `contribute` request handler of the Express server (file upload,
    zip validation, extraction checks, contribution record creation), with
    filesystem and subprocess outcomes supplied as oracle fields of the
    request model.

Machine numbers: tensor contents are irrelevant to every property proved
here, so decoded images are abstract ids (`Nat`) and metric values are
abstract `Int` stand-ins; JavaScript `undefined` is modelled as `none`.
-/

/-! ## Data model of the browser file collection -/

/-- One entry of the `FileList` handed to the loader: `webkitRelativePath`
split at `/`, the declared MIME `type`, and the outcome of the external
image decoder (`preprocessImage`): `some t` is the decoded 28x28x1 tensor
(abstract id `t`), `none` is a decode failure, which the source catches and
drops. -/
structure JsFile where
  path : List String
  ftype : String
  decoded : Option Nat
deriving DecidableEq, Repr

instance : Inhabited JsFile := ⟨⟨[], "", none⟩⟩

/-- `file.type.startsWith('image/')` from the source, expressed over the
character list (the needle is ASCII, so taking the first six characters is
the same test) so that it evaluates by kernel reduction. -/
def isImageType (t : String) : Bool :=
  t.toList.take 6 == "image/".toList

/-- `pathParts[pathParts.length - 2]` from the source: the immediate parent
directory name.  JavaScript yields `undefined` when the path has fewer than
two segments (a negative index); that is `none` here. -/
def parentLabel (p : List String) : Option String :=
  if 2 ≤ p.length then p.get? (p.length - 2) else none

/-- Index of the first occurrence of `x`, `labelMap.get(label)` for the
insertion-ordered map modelled as a duplicate-free list of keys. -/
def idxOf {α : Type} [DecidableEq α] (x : α) : List α → Nat
  | [] => 0
  | a :: t => if a = x then 0 else idxOf x t + 1

/-- Accumulated state of the label-scanning loop of `loadDataFromDirectory`:
the insertion-ordered `labelMap` (a key's index is its position), the
accepted `imageFiles`, and their `labels`. -/
structure ScanResult where
  labelMap : List (Option String)
  imageFiles : List JsFile
  labels : List Nat
deriving DecidableEq, Repr

/-- One iteration of the scanning loop: skip non-image content types,
insert an unseen parent label at the end of the map, record the file and
its label index. -/
def scanStep (acc : ScanResult) (f : JsFile) : ScanResult :=
  if isImageType f.ftype then
    let lbl := parentLabel f.path
    let lm := if lbl ∈ acc.labelMap then acc.labelMap else acc.labelMap ++ [lbl]
    { labelMap := lm
      imageFiles := acc.imageFiles ++ [f]
      labels := acc.labels ++ [idxOf lbl lm] }
  else acc

/-- The label-extraction pass over the whole file collection
(trainModel.ts lines 117-136). -/
def scanFiles (files : List JsFile) : ScanResult :=
  files.foldl scanStep ⟨[], [], []⟩

/-! ## Fisher-Yates subsampling (trainModel.ts lines 140-157) -/

/-- `[a[i], a[j]] = [a[j], a[i]]`: swap two positions of a list; out of
range the list is unchanged (never reached by the shuffle). -/
def listSwap {α : Type} (l : List α) (i j : Nat) : List α :=
  match l.get? i, l.get? j with
  | some x, some y => (l.set i y).set j x
  | _, _ => l

/-- The shuffle loop body, counting `i` down from `len-1` to `1`.
`rand i % (i+1)` models `Math.floor(Math.random() * (i + 1))`, which always
lies in `[0, i]`; the `%` records that range invariant. -/
def fyAux (rand : Nat → Nat) : Nat → List Nat → List Nat
  | 0, a => a
  | i + 1, a => fyAux rand i (listSwap a (i + 1) (rand (i + 1) % (i + 2)))

/-- The in-place Fisher-Yates shuffle of the index array. -/
def fisherYates (rand : Nat → Nat) (a : List Nat) : List Nat :=
  fyAux rand (a.length - 1) a

/-- `maxImages` from the source. -/
def maxImages : Nat := 5000

/-- The memory cap: when more than `maxImages` images were accepted, shuffle
`[0, ..., n-1]` and keep the files and labels at the first `maxImages`
positions of the shuffled permutation (trainModel.ts lines 140-157). -/
def subsample (rand : Nat → Nat) (imageFiles : List JsFile) (labels : List Nat) :
    List JsFile × List Nat :=
  if maxImages < imageFiles.length then
    let indices := List.range imageFiles.length
    let shuffled := fisherYates rand indices
    let selectedIndices := shuffled.take maxImages
    (selectedIndices.map fun i => imageFiles.getD i default,
     selectedIndices.map fun i => labels.getD i 0)
  else (imageFiles, labels)

/-! ## Chunked decoding (trainModel.ts lines 159-193) -/

/-- Decode in chunks of 100, drop the failures of each chunk, concatenate
the survivors in order.  Structural recursion on a fuel bound (each step
consumes at least one file, so `l.length` fuel always suffices) keeps the
function kernel-computable. -/
def processChunksFuel : Nat → List JsFile → List Nat
  | 0, _ => []
  | _, [] => []
  | fuel + 1, f :: rest =>
      ((f :: rest).take 100).filterMap JsFile.decoded ++
        processChunksFuel fuel ((f :: rest).drop 100)

/-- The chunked decoding loop of trainModel.ts lines 159-193. -/
def processChunks (l : List JsFile) : List Nat :=
  processChunksFuel l.length l

/-! ## Final assembly (trainModel.ts lines 195-216) -/

/-- Errors of the embedded JavaScript: the loader's
`Error('No valid images could be processed')` and arbitrary runtime
exceptions of the external oracles. -/
inductive JsError where
  | emptyDataset : JsError
  | runtime : String → JsError
deriving DecidableEq, Repr

/-- Row `j` of `tf.oneHot(indices, w)` for index `k`. -/
def oneHot (k w : Nat) : List Nat :=
  (List.range w).map fun j => if j = k then 1 else 0

/-- The loader's result: `xs` is the stack of decoded tensors (leading axis
= the list), `ys` the one-hot rows, `numClasses` the label map size. -/
structure Dataset where
  xs : List Nat
  ys : List (List Nat)
  numClasses : Nat
deriving DecidableEq, Repr

/-- `loadDataFromDirectory` of trainModel.ts: scan, cap, decode in chunks,
throw on an empty result, else stack the tensors and one-hot the *first*
`allTensors.length` labels (`labels.slice(0, allTensors.length)`), with
width `labelMap.size`. -/
def loadDataFromDirectory (rand : Nat → Nat) (files : List JsFile) :
    Except JsError Dataset :=
  let s := scanFiles files
  let pair := subsample rand s.imageFiles s.labels
  let allTensors := processChunks pair.1
  if allTensors.isEmpty then Except.error JsError.emptyDataset
  else
    let validLabels := pair.2.take allTensors.length
    Except.ok
      { xs := allTensors
        ys := validLabels.map fun k => oneHot k s.labelMap.length
        numClasses := s.labelMap.length }

/-! ## Model construction (trainModel.ts lines 36-86) -/

/-- The hyperparameters of `TrainingParams` in trainModel.ts.  Rates are
rationals standing for the JavaScript numbers, never computed with here. -/
structure TrainingParams where
  epochs : Nat
  batchSize : Nat
  learningRate : ℚ
  activationFunction : String
  dropoutRate : ℚ
  numLayers : Nat
  unitsPerLayer : Nat
deriving DecidableEq, Repr

/-- The layers `createModel` adds. -/
inductive Layer where
  | conv2d (filters kernelSize : Nat) (activation : String)
  | maxPooling2d (poolSize : Nat)
  | flatten
  | dense (units : Nat) (activation : String)
  | dropout (rate : ℚ)
deriving DecidableEq, Repr

/-- A compiled sequential architecture: the layer list plus the compile
arguments of `model.compile`. -/
structure ModelArch where
  layers : List Layer
  optimizerAdamLR : ℚ
  lossName : String
  metrics : List String
deriving DecidableEq, Repr

/-- `createModel` of trainModel.ts: conv(32,3)-pool-conv(64,3)-pool-flatten,
`numLayers` dense blocks with optional dropout, softmax head of width
`numClasses`, compiled with adam at the configured rate, categorical
cross-entropy, accuracy metric. -/
def createModel (numClasses : Nat) (params : TrainingParams) : ModelArch :=
  { layers :=
      [Layer.conv2d 32 3 params.activationFunction,
       Layer.maxPooling2d 2,
       Layer.conv2d 64 3 params.activationFunction,
       Layer.maxPooling2d 2,
       Layer.flatten] ++
      (List.range params.numLayers).flatMap (fun _ =>
        [Layer.dense params.unitsPerLayer params.activationFunction] ++
        (if 0 < params.dropoutRate then [Layer.dropout params.dropoutRate] else [])) ++
      [Layer.dense numClasses "softmax"]
    optimizerAdamLR := params.learningRate
    lossName := "categoricalCrossentropy"
    metrics := ["accuracy"] }

/-- A `tf.LayersModel` at the embedding's level of abstraction: either a
freshly built architecture or an opaque model returned by the external
deserializer. -/
inductive TFModel where
  | fromArch (arch : ModelArch)
  | external (id : Nat)
deriving DecidableEq, Repr

/-- The resume-or-create selection of trainModel.ts lines 240-253, given the
outcome of `loadTensorFlowJSModel(existingModel)`: a thrown exception is
caught and a returned `null`-ish model detected, and both fall back to
`createModel`; a loaded model is used as is.  Total: no exception escapes. -/
def selectModel (outcome : Except JsError (Option TFModel))
    (numClasses : Nat) (params : TrainingParams) : TFModel :=
  match outcome with
  | Except.ok (some m) => m
  | Except.ok none => TFModel.fromArch (createModel numClasses params)
  | Except.error _ => TFModel.fromArch (createModel numClasses params)

/-! ## The training driver (trainModel.ts lines 219-343) -/

/-- The options object passed to `model.fit`. -/
structure FitConfig where
  epochs : Nat
  batchSize : Nat
  validationSplit : ℚ
  shuffle : Bool
deriving DecidableEq, Repr

/-- The fit options trainModel builds: configured epochs, batch size clamped
by `Math.min(params.trainingParams.batchSize, 16)`, split 0.15, shuffling. -/
def fitConfigOf (params : TrainingParams) : FitConfig :=
  { epochs := params.epochs
    batchSize := min params.batchSize 16
    validationSplit := 15 / 100
    shuffle := true }

/-- `history.history` of a completed fit: the `loss` series plus the two
possible accuracy series; an absent key is `none`, metric values are
abstract stand-ins. -/
structure FitHistory where
  loss : List Int
  acc : Option (List Int)
  accuracy : Option (List Int)
deriving DecidableEq, Repr

/-- The final-accuracy selection of trainModel.ts lines 296-302:
`history.history.acc` when the key is present (its last entry; `none`
models the `undefined` a present-but-empty series would yield), else
`history.history.accuracy`, else the initial `0`. -/
def pickFinalAccuracy (h : FitHistory) : Option Int :=
  match h.acc with
  | some l => l.getLast?
  | none =>
    match h.accuracy with
    | some l => l.getLast?
    | none => some 0

/-- `history.history.loss[history.history.loss.length - 1]`. -/
def pickFinalLoss (h : FitHistory) : Option Int :=
  h.loss.getLast?

/-- The external world trainModel interacts with: `Math.random` (via the
loader), the modelConverter deserializer, `model.fit`, `createModelBundle`,
and wall-clock time.  Each oracle returns `Except` to model a JavaScript
throw. -/
structure Env where
  rand : Nat → Nat
  loadTensorFlowJSModel : List Nat → Except JsError (Option TFModel)
  fit : TFModel → Dataset → FitConfig → Except JsError FitHistory
  createModelBundle : TFModel → Except JsError Nat
  elapsed : Nat

/-- The arguments of `trainModel` (the progress callback is efferent only
and not modelled). -/
structure TrainModelParams where
  trainingDataDir : List JsFile
  trainingParams : TrainingParams
  existingModel : Option (List Nat)

/-- `metadata` of the returned `TrainModelResult`; `none` is JavaScript
`undefined`. -/
structure TrainMetadata where
  accuracy : Option Int
  loss : Option Int
  epochs : Nat
  batchSize : Nat
  trainingTime : Nat
deriving DecidableEq, Repr

/-- The success value of `trainModel`. -/
structure TrainModelResult where
  modelBlob : Nat
  metadata : TrainMetadata
deriving DecidableEq, Repr

/-- Which effects the run performed, recorded alongside the result:
whether a model was constructed or loaded, whether `model.fit` ran and
with which options, whether `createModelBundle` ran, whether the catch
block's `tf.disposeVariables()` was attempted, and which of
`xs.dispose() / ys.dispose() / model.dispose()` ran. -/
structure RunTrace where
  modelCreated : Bool
  fitInvoked : Bool
  fitConfig : Option FitConfig
  bundlerInvoked : Bool
  disposeVariablesAttempted : Bool
  xsDisposed : Bool
  ysDisposed : Bool
  modelDisposed : Bool
deriving DecidableEq, Repr

/-- The model the run trains: the resume-or-create step when
`params.existingModel` is supplied, else a fresh `createModel`. -/
def selectedModel (env : Env) (params : TrainModelParams) (ds : Dataset) : TFModel :=
  match params.existingModel with
  | some bytes => selectModel (env.loadTensorFlowJSModel bytes) ds.numClasses params.trainingParams
  | none => TFModel.fromArch (createModel ds.numClasses params.trainingParams)

/-- `trainModel` of trainModel.ts: load the dataset, select the model, fit
with the clamped batch size, bundle, assemble the metadata, dispose on
success; on any thrown error attempt `tf.disposeVariables()` and rethrow
the same error (xs/ys/model are not disposed on that path). -/
def trainModel (env : Env) (params : TrainModelParams) :
    Except JsError TrainModelResult × RunTrace :=
  match loadDataFromDirectory env.rand params.trainingDataDir with
  | Except.error e =>
      (Except.error e,
       { modelCreated := false, fitInvoked := false, fitConfig := none
         bundlerInvoked := false, disposeVariablesAttempted := true
         xsDisposed := false, ysDisposed := false, modelDisposed := false })
  | Except.ok ds =>
      let model := selectedModel env params ds
      let cfg := fitConfigOf params.trainingParams
      match env.fit model ds cfg with
      | Except.error e =>
          (Except.error e,
           { modelCreated := true, fitInvoked := true, fitConfig := some cfg
             bundlerInvoked := false, disposeVariablesAttempted := true
             xsDisposed := false, ysDisposed := false, modelDisposed := false })
      | Except.ok history =>
          match env.createModelBundle model with
          | Except.error e =>
              (Except.error e,
               { modelCreated := true, fitInvoked := true, fitConfig := some cfg
                 bundlerInvoked := true, disposeVariablesAttempted := true
                 xsDisposed := false, ysDisposed := false, modelDisposed := false })
          | Except.ok blob =>
              (Except.ok
                 { modelBlob := blob
                   metadata :=
                     { accuracy := pickFinalAccuracy history
                       loss := pickFinalLoss history
                       epochs := params.trainingParams.epochs
                       batchSize := min params.trainingParams.batchSize 16
                       trainingTime := env.elapsed } },
               { modelCreated := true, fitInvoked := true, fitConfig := some cfg
                 bundlerInvoked := true, disposeVariablesAttempted := false
                 xsDisposed := true, ysDisposed := true, modelDisposed := true })

/-! ## The server `contribute` endpoint (Server controller) -/

/-- One entry of `model.json`'s `weightsManifest`: its `paths` array, or
`none` when the field is absent (`manifest.paths || []`). -/
structure ManifestGroup where
  paths : Option (List String)
deriving DecidableEq, Repr

/-- The parse of `model.json`: its `weightsManifest` array, or `none` when
the field is absent (`modelJson.weightsManifest || []`). -/
structure ModelJsonDoc where
  weightsManifest : Option (List ManifestGroup)
deriving DecidableEq, Repr

/-- One incoming contribution request together with the outcomes of the
external effects the handler performs, so that the handler itself is a pure
function of this record: database lookups (`projectFound`,
`contributorFound`), the authorization facts, the multipart upload
(`filePresent`, `fileDataAccessible`, the raw `fileBytes`), the `sha1` form
field (`""` models a missing/empty, i.e. falsy, value), whether
`new AdmZip`/`extractAllTo` succeeds and if not whether the thrown message
contains `Invalid or unsupported zip format`, the relative paths present in
the extracted directory, the parse of the extracted `model.json` (`none`
models `JSON.parse` throwing), and the outcomes of the python subprocess
and the record save. -/
structure ContribRequest where
  projectFound : Bool
  contributorFound : Bool
  isOwner : Bool
  isCollaborator : Bool
  filePresent : Bool
  sha1 : String
  fileDataAccessible : Bool
  fileBytes : List Nat
  zipExtractOk : Bool
  zipErrorFormatMsg : Bool
  extractedEntries : List String
  modelJsonDoc : Option ModelJsonDoc
  execOk : Bool
  dbOk : Bool
deriving DecidableEq, Repr

/-- `isZipFile` of the handler: the four zip magic-number checks; anything
shorter than four bytes fails. -/
def isZipFile (data : List Nat) : Bool :=
  match data with
  | b0 :: b1 :: b2 :: b3 :: _ =>
      b0 == 0x50 && b1 == 0x4B &&
        ((b2 == 0x03 && b3 == 0x04) ||
         (b2 == 0x05 && b3 == 0x06) ||
         (b2 == 0x07 && b3 == 0x08))
  | _ => false

/-- The missing-weights accumulation of the handler: for each manifest
group in order, the `paths` entries (in order) that are not present among
the extracted files. -/
def missingWeights (doc : ModelJsonDoc) (entries : List String) : List String :=
  (doc.weightsManifest.getD []).flatMap fun g =>
    (g.paths.getD []).filter fun p => !(entries.contains p)

/-- What one request leaves behind: the HTTP status sent, whether the
per-contribution directory was created and whether it was removed again,
the `hash` stored in the created Contribution record (`none`: no record),
and the name of the contribution directory. -/
structure ContribOutcome where
  status : Nat
  dirCreated : Bool
  dirRemoved : Bool
  recordedHash : Option String
  dirName : Option String
deriving DecidableEq, Repr

/-- The `contribute` handler: the guard cascade (404/403/400 replies), the
zip magic check, extraction into `${sha1Hash}.tfjs` with its catch block
(the `Invalid or unsupported zip format` message returns 400 *without*
removing the directory, any other extraction/parse error removes it), the
`model.json` existence check, the weights-manifest completeness check, the
python subprocess, and finally the Contribution record storing the supplied
hash.  The uploaded JSON-instead-of-zip special case only changes the reply
message, not the status, and is therefore not a separate branch here. -/
def contribute (req : ContribRequest) : ContribOutcome :=
  if !req.projectFound then ⟨404, false, false, none, none⟩
  else if !req.contributorFound then ⟨404, false, false, none, none⟩
  else if !(req.isOwner || req.isCollaborator) then ⟨403, false, false, none, none⟩
  else if !req.filePresent then ⟨400, false, false, none, none⟩
  else if req.sha1 = "" then ⟨400, false, false, none, none⟩
  else if !req.fileDataAccessible then ⟨400, false, false, none, none⟩
  else if !(isZipFile req.fileBytes) then ⟨400, false, false, none, none⟩
  else
    let dname := req.sha1 ++ ".tfjs"
    if !req.zipExtractOk then
      if req.zipErrorFormatMsg then ⟨400, true, false, none, some dname⟩
      else ⟨400, true, true, none, some dname⟩
    else if !(req.extractedEntries.contains "model.json") then
      ⟨400, true, true, none, some dname⟩
    else
      match req.modelJsonDoc with
      | none => ⟨400, true, true, none, some dname⟩
      | some doc =>
          if missingWeights doc req.extractedEntries ≠ [] then
            ⟨400, true, true, none, some dname⟩
          else if !req.execOk then ⟨500, true, false, none, some dname⟩
          else if !req.dbOk then ⟨500, true, false, none, some dname⟩
          else ⟨200, true, false, some req.sha1, some dname⟩

/-- Whether the guard cascade before directory creation passes, i.e. the
run reaches extraction. -/
def reachesExtraction (req : ContribRequest) : Bool :=
  req.projectFound && req.contributorFound && (req.isOwner || req.isCollaborator) &&
    req.filePresent && (req.sha1 != "") && req.fileDataAccessible &&
    isZipFile req.fileBytes

/-- The handler's behaviour with the `sha1` field projected out: status,
directory flags, whether a record is created, whether the contribution
directory is named at all.  Used to state that the decision does not read
the hash value. -/
structure CoreOutcome where
  status : Nat
  dirCreated : Bool
  dirRemoved : Bool
  accepted : Bool
  reachedDir : Bool
deriving DecidableEq, Repr

/-- `contribute` with the (non-empty) `sha1` value abstracted away. -/
def contributeCore (req : ContribRequest) : CoreOutcome :=
  if !req.projectFound then ⟨404, false, false, false, false⟩
  else if !req.contributorFound then ⟨404, false, false, false, false⟩
  else if !(req.isOwner || req.isCollaborator) then ⟨403, false, false, false, false⟩
  else if !req.filePresent then ⟨400, false, false, false, false⟩
  else if !req.fileDataAccessible then ⟨400, false, false, false, false⟩
  else if !(isZipFile req.fileBytes) then ⟨400, false, false, false, false⟩
  else if !req.zipExtractOk then
    if req.zipErrorFormatMsg then ⟨400, true, false, false, true⟩
    else ⟨400, true, true, false, true⟩
  else if !(req.extractedEntries.contains "model.json") then
    ⟨400, true, true, false, true⟩
  else
    match req.modelJsonDoc with
    | none => ⟨400, true, true, false, true⟩
    | some doc =>
        if missingWeights doc req.extractedEntries ≠ [] then
          ⟨400, true, true, false, true⟩
        else if !req.execOk then ⟨500, true, false, false, true⟩
        else if !req.dbOk then ⟨500, true, false, false, true⟩
        else ⟨200, true, false, true, true⟩

/-- Reattach a hash value to the sha1-free outcome. -/
def realizeOutcome (c : CoreOutcome) (s : String) : ContribOutcome :=
  { status := c.status
    dirCreated := c.dirCreated
    dirRemoved := c.dirRemoved
    recordedHash := if c.accepted then some s else none
    dirName := if c.reachedDir then some (s ++ ".tfjs") else none }

/-! ## Permutation lemmas for the shuffle -/

/-- Moving an element of a list to the front while writing another value
into its position is a permutation of consing that other value. -/
theorem cons_set_perm {α : Type} (v : α) :
    ∀ (t : List α) (j : Nat) (w : α), t[j]? = some w →
      List.Perm (w :: t.set j v) (v :: t) := by
  intro t
  induction t with
  | nil => intro j w h; simp at h
  | cons b s ih =>
    intro j w h
    cases j with
    | zero =>
      simp at h
      subst h
      simpa using List.Perm.swap v b s
    | succ k =>
      simp at h
      have h1 : List.Perm (w :: b :: s.set k v) (b :: w :: s.set k v) :=
        List.Perm.swap b w (s.set k v)
      have h2 : List.Perm (b :: w :: s.set k v) (b :: v :: s) :=
        List.Perm.cons b (ih k w h)
      have h3 : List.Perm (b :: v :: s) (v :: b :: s) := List.Perm.swap v b s
      simpa using (h1.trans h2).trans h3

/-- Writing the element at `j` into position `i` and the element at `i`
into position `j` permutes the list. -/
theorem set_set_perm {α : Type} :
    ∀ (l : List α) (i j : Nat) (x y : α), l[i]? = some x → l[j]? = some y →
      List.Perm ((l.set i y).set j x) l := by
  intro l
  induction l with
  | nil => intro i j x y hx _; simp at hx
  | cons a t ih =>
    intro i j x y hx hy
    cases i with
    | zero =>
      simp at hx
      cases j with
      | zero =>
        simp at hy
        subst hx; subst hy
        simp
      | succ k =>
        simp at hy
        subst hx
        simpa using cons_set_perm a t k y hy
    | succ i =>
      simp at hx
      cases j with
      | zero =>
        simp at hy
        subst hy
        simpa using cons_set_perm a t i x hx
      | succ k =>
        simp at hy
        simpa using List.Perm.cons a (ih i k x y hx hy)

/-- A swap permutes the list. -/
theorem listSwap_perm {α : Type} (l : List α) (i j : Nat) :
    List.Perm (listSwap l i j) l := by
  unfold listSwap
  rcases hx : l.get? i with _ | x <;> rcases hy : l.get? j with _ | y <;>
    simp [hx, hy]
  refine set_set_perm l i j x y ?_ ?_
  · rw [← List.get?_eq_getElem?]; exact hx
  · rw [← List.get?_eq_getElem?]; exact hy

/-- Every pass of the shuffle loop permutes the array. -/
theorem fyAux_perm (rand : Nat → Nat) :
    ∀ (n : Nat) (a : List Nat), List.Perm (fyAux rand n a) a := by
  intro n
  induction n with
  | zero => intro a; exact List.Perm.refl a
  | succ k ih =>
    intro a
    exact (ih _).trans (listSwap_perm a (k + 1) (rand (k + 1) % (k + 2)))

/-- The Fisher-Yates result is a permutation of its input. -/
theorem fisherYates_perm (rand : Nat → Nat) (a : List Nat) :
    List.Perm (fisherYates rand a) a :=
  fyAux_perm rand (a.length - 1) a

/-! ## The chunk loop decodes exactly like a single filterMap -/

theorem processChunksFuel_eq :
    ∀ (fuel : Nat) (l : List JsFile), l.length ≤ fuel →
      processChunksFuel fuel l = l.filterMap JsFile.decoded := by
  intro fuel
  induction fuel with
  | zero =>
    intro l h
    cases l with
    | nil => simp [processChunksFuel]
    | cons f rest => simp at h
  | succ k ih =>
    intro l h
    cases l with
    | nil => simp [processChunksFuel]
    | cons f rest =>
      rw [processChunksFuel, ih ((f :: rest).drop 100) ?_,
        ← List.filterMap_append, List.take_append_drop]
      simp only [List.length_drop, List.length_cons]
      simp only [List.length_cons] at h
      omega

/-- Concatenating the per-chunk survivors is the same as filtering the
whole retained list at once. -/
theorem processChunks_eq_filterMap (l : List JsFile) :
    processChunks l = l.filterMap JsFile.decoded :=
  processChunksFuel_eq l.length l (le_refl _)

/-! ## Scan invariants -/

/-- Insert a key at the end of the ordered map unless already present. -/
def insStep {α : Type} [DecidableEq α] (m : List α) (x : α) : List α :=
  if x ∈ m then m else m ++ [x]

/-- The keys of an ordered map built by first-seen insertion over a list. -/
def firstSeenDedup {α : Type} [DecidableEq α] (l : List α) : List α :=
  l.foldl insStep []

/-- The parent labels of the accepted image files, in scan order. -/
def imageParentLabels (files : List JsFile) : List (Option String) :=
  (files.filter fun f => isImageType f.ftype).map fun f => parentLabel f.path

theorem mem_insStep {α : Type} [DecidableEq α] (m : List α) (a x : α) :
    x ∈ insStep m a ↔ x ∈ m ∨ x = a := by
  unfold insStep
  by_cases h : a ∈ m
  · rw [if_pos h]
    constructor
    · exact Or.inl
    · rintro (hx | rfl)
      · exact hx
      · exact h
  · rw [if_neg h]
    simp

theorem mem_foldl_insStep {α : Type} [DecidableEq α] :
    ∀ (l : List α) (m : List α) (x : α),
      x ∈ l.foldl insStep m ↔ x ∈ m ∨ x ∈ l := by
  intro l
  induction l with
  | nil => intro m x; simp
  | cons a t ih =>
    intro m x
    rw [List.foldl_cons, ih, mem_insStep, List.mem_cons]
    tauto

theorem nodup_insStep {α : Type} [DecidableEq α] (m : List α) (a : α)
    (h : m.Nodup) : (insStep m a).Nodup := by
  unfold insStep
  by_cases ha : a ∈ m
  · rw [if_pos ha]; exact h
  · rw [if_neg ha, (List.perm_append_singleton a m).nodup_iff]
    exact List.nodup_cons.mpr ⟨ha, h⟩

theorem nodup_foldl_insStep {α : Type} [DecidableEq α] :
    ∀ (l : List α) (m : List α), m.Nodup → (l.foldl insStep m).Nodup := by
  intro l
  induction l with
  | nil => intro m h; exact h
  | cons a t ih => intro m h; exact ih _ (nodup_insStep m a h)

/-- The map built by first-seen insertion has exactly one key per distinct
element of the scanned list. -/
theorem firstSeenDedup_length {α : Type} [DecidableEq α] (l : List α) :
    (firstSeenDedup l).length = l.toFinset.card := by
  have hnd : (firstSeenDedup l).Nodup := nodup_foldl_insStep l [] List.nodup_nil
  have hts : (firstSeenDedup l).toFinset = l.toFinset := by
    apply Finset.ext
    intro x
    simp only [List.mem_toFinset]
    rw [firstSeenDedup, mem_foldl_insStep]
    simp
  rw [← hts, List.toFinset_card_of_nodup hnd]

/-- The scan's label map is exactly first-seen insertion over the parent
labels of the accepted image files. -/
theorem scan_labelMap_foldl :
    ∀ (files : List JsFile) (acc : ScanResult),
      (files.foldl scanStep acc).labelMap =
        (imageParentLabels files).foldl insStep acc.labelMap := by
  intro files
  induction files with
  | nil => intro acc; simp [imageParentLabels]
  | cons f fs ih =>
    intro acc
    by_cases h : isImageType f.ftype
    · have h1 : imageParentLabels (f :: fs) =
          parentLabel f.path :: imageParentLabels fs := by
        simp [imageParentLabels, h]
      rw [List.foldl_cons, ih, h1, List.foldl_cons]
      have h2 : (scanStep acc f).labelMap = insStep acc.labelMap (parentLabel f.path) := by
        simp [scanStep, insStep, h]
      rw [h2]
    · have h1 : imageParentLabels (f :: fs) = imageParentLabels fs := by
        simp [imageParentLabels, h]
      have h2 : scanStep acc f = acc := by simp [scanStep, h]
      rw [List.foldl_cons, ih, h1, h2]

theorem scanFiles_labelMap (files : List JsFile) :
    (scanFiles files).labelMap = firstSeenDedup (imageParentLabels files) :=
  scan_labelMap_foldl files ⟨[], [], []⟩

/-- A non-image file leaves the scanning state untouched. -/
theorem scanStep_nonimage (acc : ScanResult) (f : JsFile)
    (h : ¬ isImageType f.ftype) : scanStep acc f = acc := by
  simp [scanStep, h]

/-- Non-image files are invisible to the scan. -/
theorem scanFiles_filter (files : List JsFile) :
    scanFiles files = scanFiles (files.filter fun f => isImageType f.ftype) := by
  unfold scanFiles
  suffices h : ∀ acc : ScanResult,
      files.foldl scanStep acc =
        (files.filter fun f => isImageType f.ftype).foldl scanStep acc by
    exact h _
  induction files with
  | nil => intro acc; simp
  | cons f fs ih =>
    intro acc
    by_cases h : isImageType f.ftype
    · simp only [List.filter_cons, h, if_pos, List.foldl_cons]
      exact ih _
    · simp only [List.filter_cons, h, Bool.false_eq_true, if_false, List.foldl_cons]
      rw [scanStep_nonimage acc f h]
      exact ih acc

/-- Appending keys on the right never changes the index of a key already
present. -/
theorem idxOf_append_of_mem {α : Type} [DecidableEq α] {x : α} :
    ∀ {l : List α}, x ∈ l → ∀ t : List α, idxOf x (l ++ t) = idxOf x l := by
  intro l
  induction l with
  | nil => intro h; simp at h
  | cons a s ih =>
    intro h t
    by_cases hax : a = x
    · simp [idxOf, hax]
    · rcases List.mem_cons.mp h with rfl | hs
      · exact absurd rfl hax
      · simp [idxOf, hax, ih hs t]

/-- A key appended to a map that lacked it gets index `length`. -/
theorem idxOf_append_self {α : Type} [DecidableEq α] {x : α} :
    ∀ {m : List α}, x ∉ m → idxOf x (m ++ [x]) = m.length := by
  intro m
  induction m with
  | nil => intro _; simp [idxOf]
  | cons a s ih =>
    intro h
    have hax : a ≠ x := fun hc => h (hc ▸ List.mem_cons_self a s)
    have hxs : x ∉ s := fun hc => h (List.mem_cons_of_mem a hc)
    simp [idxOf, hax, ih hxs]

/-- The running invariant of the scanning loop: labels and image files stay
aligned, and the label stored for the i-th accepted image is the label-map
index of that image's parent directory. -/
def ScanInv (acc : ScanResult) : Prop :=
  acc.labels.length = acc.imageFiles.length ∧
  ∀ i, i < acc.imageFiles.length →
    parentLabel (acc.imageFiles.getD i default).path ∈ acc.labelMap ∧
    acc.labels.getD i 0 =
      idxOf (parentLabel (acc.imageFiles.getD i default).path) acc.labelMap

theorem scanStep_inv (acc : ScanResult) (f : JsFile) (h : ScanInv acc) :
    ScanInv (scanStep acc f) := by
  by_cases hf : isImageType f.ftype
  · obtain ⟨hlen, hidx⟩ := h
    unfold scanStep
    rw [if_pos hf]
    constructor
    · simp [hlen]
    · intro i hi
      simp only [List.length_append, List.length_singleton] at hi
      set lbl := parentLabel f.path with hlbl
      by_cases hmem : lbl ∈ acc.labelMap
      · -- the map is unchanged
        simp only [if_pos hmem]
        rcases Nat.lt_or_ge i acc.imageFiles.length with hlt | hge
        · rw [List.getD_append _ _ _ _ hlt, List.getD_append _ _ _ _ (hlen ▸ hlt)]
          exact hidx i hlt
        · have hie : i = acc.imageFiles.length := by omega
          rw [hie, List.getD_append_right _ _ _ _ (le_refl _),
            List.getD_append_right _ _ _ _ (le_of_eq hlen)]
          simp [hlen, hmem]
      · -- the new label is appended at position `length`
        simp only [if_neg hmem]
        rcases Nat.lt_or_ge i acc.imageFiles.length with hlt | hge
        · rw [List.getD_append _ _ _ _ hlt, List.getD_append _ _ _ _ (hlen ▸ hlt)]
          obtain ⟨hmem0, heq0⟩ := hidx i hlt
          refine ⟨List.mem_append_left _ hmem0, ?_⟩
          rw [heq0, idxOf_append_of_mem hmem0]
        · have hie : i = acc.imageFiles.length := by omega
          rw [hie, List.getD_append_right _ _ _ _ (le_refl _),
            List.getD_append_right _ _ _ _ (le_of_eq hlen)]
          simp only [hlen, Nat.sub_self, List.getD_cons_zero]
          exact ⟨List.mem_append_right _ (List.mem_singleton_self lbl), trivial⟩
  · rwa [scanStep_nonimage acc f hf]

theorem foldl_scanStep_inv :
    ∀ (files : List JsFile) (acc : ScanResult), ScanInv acc →
      ScanInv (files.foldl scanStep acc) := by
  intro files
  induction files with
  | nil => intro acc h; exact h
  | cons f fs ih => intro acc h; exact ih _ (scanStep_inv acc f h)

/-- The scan's alignment invariant, at the empty start state. -/
theorem scanFiles_inv (files : List JsFile) : ScanInv (scanFiles files) := by
  apply foldl_scanStep_inv
  exact ⟨rfl, fun i hi => absurd hi (by simp)⟩

/-- Everything the scan accepts is an image file of the input collection. -/
theorem scan_imageFiles_mem :
    ∀ (files : List JsFile) (acc : ScanResult) (f : JsFile),
      f ∈ (files.foldl scanStep acc).imageFiles →
      f ∈ acc.imageFiles ∨ (f ∈ files ∧ isImageType f.ftype = true) := by
  intro files
  induction files with
  | nil => intro acc f h; exact Or.inl h
  | cons g fs ih =>
    intro acc f h
    rcases ih (scanStep acc g) f h with hacc | ⟨hfs, himg⟩
    · by_cases hg : isImageType g.ftype
      · unfold scanStep at hacc
        rw [if_pos hg] at hacc
        simp only [List.mem_append, List.mem_singleton] at hacc
        rcases hacc with hacc | rfl
        · exact Or.inl hacc
        · exact Or.inr ⟨List.mem_cons_self f fs, hg⟩
      · rw [scanStep_nonimage acc g hg] at hacc
        exact Or.inl hacc
    · exact Or.inr ⟨List.mem_cons_of_mem g hfs, himg⟩

theorem scanFiles_imageFiles_mem (files : List JsFile) (f : JsFile)
    (h : f ∈ (scanFiles files).imageFiles) :
    f ∈ files ∧ isImageType f.ftype = true := by
  rcases scan_imageFiles_mem files ⟨[], [], []⟩ f h with hnil | hok
  · simp at hnil
  · exact hok

/-! ## Subsampling lemmas -/

theorem getD_mem_of_lt {α : Type} (l : List α) (i : Nat) (d : α)
    (h : i < l.length) : l.getD i d ∈ l := by
  rw [List.getD_eq_get?, List.get?_eq_get h]
  exact List.get_mem l i h

theorem fisherYates_range_length (rand : Nat → Nat) (n : Nat) :
    (fisherYates rand (List.range n)).length = n := by
  rw [(fisherYates_perm rand (List.range n)).length_eq, List.length_range]

/-- The cap keeps `min n maxImages` of the `n` accepted files, and as many
labels. -/
theorem subsample_lengths (rand : Nat → Nat) (imgs : List JsFile)
    (labels : List Nat) (h : labels.length = imgs.length) :
    (subsample rand imgs labels).1.length = min imgs.length maxImages ∧
    (subsample rand imgs labels).2.length = min imgs.length maxImages := by
  unfold subsample
  by_cases hgt : maxImages < imgs.length
  · rw [if_pos hgt]
    have hlen : ((fisherYates rand (List.range imgs.length)).take maxImages).length
        = maxImages := by
      rw [List.length_take, fisherYates_range_length]
      omega
    constructor <;> simp only [List.length_map, hlen] <;> omega
  · rw [if_neg hgt]
    constructor <;> simp only [] <;> omega

/-- Every file the cap keeps was among the accepted files. -/
theorem subsample_mem_files (rand : Nat → Nat) (imgs : List JsFile)
    (labels : List Nat) (f : JsFile)
    (h : f ∈ (subsample rand imgs labels).1) : f ∈ imgs := by
  unfold subsample at h
  by_cases hgt : maxImages < imgs.length
  · rw [if_pos hgt] at h
    simp only [List.mem_map] at h
    obtain ⟨i, hi, rfl⟩ := h
    have hish : i ∈ fisherYates rand (List.range imgs.length) :=
      List.take_subset _ _ hi
    have hirange : i ∈ List.range imgs.length :=
      (fisherYates_perm rand (List.range imgs.length)).mem_iff.mp hish
    exact getD_mem_of_lt imgs i default (List.mem_range.mp hirange)
  · rw [if_neg hgt] at h
    exact h

/-! ## Loader elimination -/

/-- Unpacks a successful run of the loader into its pieces. -/
theorem load_ok_elim (rand : Nat → Nat) (files : List JsFile) (ds : Dataset)
    (h : loadDataFromDirectory rand files = Except.ok ds) :
    ds.xs = processChunks
      (subsample rand (scanFiles files).imageFiles (scanFiles files).labels).1 ∧
    ds.ys = ((subsample rand (scanFiles files).imageFiles (scanFiles files).labels).2.take
        ds.xs.length).map (fun k => oneHot k (scanFiles files).labelMap.length) ∧
    ds.numClasses = (scanFiles files).labelMap.length ∧
    ds.xs ≠ [] := by
  simp only [loadDataFromDirectory] at h
  by_cases he : (processChunks
      (subsample rand (scanFiles files).imageFiles (scanFiles files).labels).1).isEmpty
  · rw [if_pos he] at h
    cases h
  · rw [if_neg he] at h
    injection h with h
    subst h
    refine ⟨rfl, rfl, rfl, ?_⟩
    intro hc
    rw [← List.isEmpty_iff] at hc
    exact he hc

/-! ## Branch equations of the training driver -/

theorem trainModel_load_error (env : Env) (params : TrainModelParams) (e : JsError)
    (hl : loadDataFromDirectory env.rand params.trainingDataDir = Except.error e) :
    trainModel env params =
      (Except.error e,
       { modelCreated := false, fitInvoked := false, fitConfig := none
         bundlerInvoked := false, disposeVariablesAttempted := true
         xsDisposed := false, ysDisposed := false, modelDisposed := false }) := by
  simp [trainModel, hl]

theorem trainModel_fit_error (env : Env) (params : TrainModelParams) (ds : Dataset)
    (e : JsError)
    (hl : loadDataFromDirectory env.rand params.trainingDataDir = Except.ok ds)
    (hf : env.fit (selectedModel env params ds) ds (fitConfigOf params.trainingParams) =
      Except.error e) :
    trainModel env params =
      (Except.error e,
       { modelCreated := true, fitInvoked := true
         fitConfig := some (fitConfigOf params.trainingParams)
         bundlerInvoked := false, disposeVariablesAttempted := true
         xsDisposed := false, ysDisposed := false, modelDisposed := false }) := by
  simp [trainModel, hl, hf]

theorem trainModel_bundle_error (env : Env) (params : TrainModelParams) (ds : Dataset)
    (hist : FitHistory) (e : JsError)
    (hl : loadDataFromDirectory env.rand params.trainingDataDir = Except.ok ds)
    (hf : env.fit (selectedModel env params ds) ds (fitConfigOf params.trainingParams) =
      Except.ok hist)
    (hb : env.createModelBundle (selectedModel env params ds) = Except.error e) :
    trainModel env params =
      (Except.error e,
       { modelCreated := true, fitInvoked := true
         fitConfig := some (fitConfigOf params.trainingParams)
         bundlerInvoked := true, disposeVariablesAttempted := true
         xsDisposed := false, ysDisposed := false, modelDisposed := false }) := by
  simp [trainModel, hl, hf, hb]

theorem trainModel_success (env : Env) (params : TrainModelParams) (ds : Dataset)
    (hist : FitHistory) (blob : Nat)
    (hl : loadDataFromDirectory env.rand params.trainingDataDir = Except.ok ds)
    (hf : env.fit (selectedModel env params ds) ds (fitConfigOf params.trainingParams) =
      Except.ok hist)
    (hb : env.createModelBundle (selectedModel env params ds) = Except.ok blob) :
    trainModel env params =
      (Except.ok
         { modelBlob := blob
           metadata :=
             { accuracy := pickFinalAccuracy hist
               loss := pickFinalLoss hist
               epochs := params.trainingParams.epochs
               batchSize := min params.trainingParams.batchSize 16
               trainingTime := env.elapsed } },
       { modelCreated := true, fitInvoked := true
         fitConfig := some (fitConfigOf params.trainingParams)
         bundlerInvoked := true, disposeVariablesAttempted := false
         xsDisposed := true, ysDisposed := true, modelDisposed := true }) := by
  simp [trainModel, hl, hf, hb]

/-! ## Claim theorems -/

/-- A two-file collection exhibiting the loader's label slicing: the first
image file (label directory `a`) fails to decode, the second (label
directory `b`) decodes to tensor `7`. -/
def fileA : JsFile := { path := ["a", "x.png"], ftype := "image/png", decoded := none }

/-- The second file of the collection of `fileA`: parent directory `b`,
decodes successfully. -/
def fileB : JsFile := { path := ["b", "y.png"], ftype := "image/png", decoded := some 7 }

/-- C1: the claim says row i of `ys` one-hot-encodes the label of the image
stacked at slice i of `xs` even when an earlier image fails to decode.  On
the collection `[fileA, fileB]` the code drops `fileA` (decode failure), so
the single retained sample is `fileB`, whose parent directory `b` has label
index 1 and one-hot `[0, 1]`; but `labels.slice(0, 1)` keeps label 0 of the
dropped `fileA`, so the returned `ys` is `[[1, 0]]`: the surviving sample
is paired with the dropped file's label. -/
theorem c1_mislabeling_eval :
    loadDataFromDirectory (fun _ => 0) [fileA, fileB] =
      Except.ok { xs := [7], ys := [[1, 0]], numClasses := 2 } ∧
    fileB.decoded = some 7 ∧
    parentLabel fileB.path = some "b" ∧
    idxOf (some "b") (scanFiles [fileA, fileB]).labelMap = 1 ∧
    oneHot 1 2 = [0, 1] ∧
    ([[1, 0]] : List (List Nat)) ≠ [[0, 1]] := by
  refine ⟨rfl, ?_⟩
  decide

/-- C2: on every successful load, `xs` and `ys` have the same leading
dimension, bounded by `min(acceptedImageCount, 5000)`; and when the
accepted count exceeds 5000, the retained files and labels are exactly the
ones indexed by the first 5000 positions of a Fisher-Yates permutation of
the original indices, the same position list for files and for labels, so
each retained file keeps its own label. -/
theorem c2_sample_budget (rand : Nat → Nat) (files : List JsFile) (ds : Dataset)
    (h : loadDataFromDirectory rand files = Except.ok ds) :
    ds.xs.length = ds.ys.length ∧
    ds.xs.length ≤ min (scanFiles files).imageFiles.length 5000 ∧
    (5000 < (scanFiles files).imageFiles.length →
      List.Perm (fisherYates rand (List.range (scanFiles files).imageFiles.length))
        (List.range (scanFiles files).imageFiles.length) ∧
      (subsample rand (scanFiles files).imageFiles (scanFiles files).labels).1 =
        ((fisherYates rand (List.range (scanFiles files).imageFiles.length)).take 5000).map
          (fun i => (scanFiles files).imageFiles.getD i default) ∧
      (subsample rand (scanFiles files).imageFiles (scanFiles files).labels).2 =
        ((fisherYates rand (List.range (scanFiles files).imageFiles.length)).take 5000).map
          (fun i => (scanFiles files).labels.getD i 0) ∧
      (subsample rand (scanFiles files).imageFiles (scanFiles files).labels).1.length = 5000) := by
  obtain ⟨hxs, hys, hnc, hne⟩ := load_ok_elim rand files ds h
  obtain ⟨hlen, _⟩ := scanFiles_inv files
  obtain ⟨hs1, hs2⟩ := subsample_lengths rand _ _ hlen
  have hmax : maxImages = 5000 := rfl
  have hxle : ds.xs.length ≤
      (subsample rand (scanFiles files).imageFiles (scanFiles files).labels).1.length := by
    rw [hxs, processChunks_eq_filterMap]
    exact List.length_filterMap_le _ _
  have hxle2 : ds.xs.length ≤
      (subsample rand (scanFiles files).imageFiles (scanFiles files).labels).2.length := by
    rw [hs2, ← hs1]
    exact hxle
  refine ⟨?_, ?_, ?_⟩
  · rw [hys, List.length_map, List.length_take]
    omega
  · rw [hs1, hmax] at hxle
    omega
  · intro hgt
    have hgt2 : maxImages < (scanFiles files).imageFiles.length := by omega
    refine ⟨fisherYates_perm rand _, ?_, ?_, ?_⟩
    · unfold subsample
      rw [if_pos hgt2]
      rfl
    · unfold subsample
      rw [if_pos hgt2]
      rfl
    · rw [hs1]
      omega

/-- C3: on every successful load, `numClasses` is the number of distinct
parent-directory names among the files whose content type is an image;
non-image files leave the scan untouched; the label map is first-seen
insertion over the image files' parent labels, so label indices are dense,
zero-based positions in first-seen order and each accepted image's stored
label is its parent's index in that map. -/
theorem c3_label_map (rand : Nat → Nat) (files : List JsFile) (ds : Dataset)
    (h : loadDataFromDirectory rand files = Except.ok ds) :
    ds.numClasses = (imageParentLabels files).toFinset.card ∧
    (scanFiles files).labelMap = firstSeenDedup (imageParentLabels files) ∧
    scanFiles files = scanFiles (files.filter fun f => isImageType f.ftype) ∧
    ∀ i, i < (scanFiles files).imageFiles.length →
      (scanFiles files).labels.getD i 0 =
        idxOf (parentLabel ((scanFiles files).imageFiles.getD i default).path)
          (scanFiles files).labelMap := by
  obtain ⟨hxs, hys, hnc, hne⟩ := load_ok_elim rand files ds h
  refine ⟨?_, scanFiles_labelMap files, scanFiles_filter files, ?_⟩
  · rw [hnc, scanFiles_labelMap files, firstSeenDedup_length]
  · intro i hi
    exact ((scanFiles_inv files).2 i hi).2

/-- C4: when no image of the collection decodes successfully (in particular
on the empty collection), the loader fails with the empty-dataset error,
`trainModel` propagates it, and neither model construction nor the fit loop
nor the bundler is invoked. -/
theorem c4_empty_dataset (env : Env) (params : TrainModelParams)
    (h : ∀ f ∈ params.trainingDataDir, isImageType f.ftype = true → f.decoded = none) :
    (trainModel env params).1 = Except.error JsError.emptyDataset ∧
    (trainModel env params).2.modelCreated = false ∧
    (trainModel env params).2.fitInvoked = false ∧
    (trainModel env params).2.bundlerInvoked = false := by
  have hempty : processChunks (subsample env.rand
      (scanFiles params.trainingDataDir).imageFiles
      (scanFiles params.trainingDataDir).labels).1 = [] := by
    rw [processChunks_eq_filterMap, List.filterMap_eq_nil]
    intro f hf
    obtain ⟨hmem, himg⟩ :=
      scanFiles_imageFiles_mem _ f (subsample_mem_files _ _ _ f hf)
    exact h f hmem himg
  have hload : loadDataFromDirectory env.rand params.trainingDataDir =
      Except.error JsError.emptyDataset := by
    simp [loadDataFromDirectory, hempty]
  rw [trainModel_load_error env params JsError.emptyDataset hload]
  exact ⟨rfl, rfl, rfl, rfl⟩

/-- C5: whatever the deserializer does with the prior-artifact bytes —
throw, return no model, or return a model — the selection step always
yields a ready model: a thrown error or a missing model falls back to fresh
construction from the configuration, and the function is total, so the
incompatibility never reaches the caller. -/
theorem c5_resume_fallback (outcome : Except JsError (Option TFModel))
    (numClasses : Nat) (params : TrainingParams) :
    (∀ e, outcome = Except.error e →
      selectModel outcome numClasses params =
        TFModel.fromArch (createModel numClasses params)) ∧
    (outcome = Except.ok none →
      selectModel outcome numClasses params =
        TFModel.fromArch (createModel numClasses params)) ∧
    (∀ m, outcome = Except.ok (some m) →
      selectModel outcome numClasses params = m) := by
  refine ⟨?_, ?_, ?_⟩
  · rintro e rfl
    rfl
  · rintro rfl
    rfl
  · rintro m rfl
    rfl

/-- C6: when the fit loop throws, trainModel rethrows exactly that error
(the propagated error is the underlying cause), after attempting the
global `tf.disposeVariables()` cleanup, and it disposes neither xs nor ys
nor the model on this path. -/
theorem c6_fit_failure (env : Env) (params : TrainModelParams) (ds : Dataset)
    (e : JsError)
    (hload : loadDataFromDirectory env.rand params.trainingDataDir = Except.ok ds)
    (hfit : env.fit (selectedModel env params ds) ds (fitConfigOf params.trainingParams) =
      Except.error e) :
    (trainModel env params).1 = Except.error e ∧
    (trainModel env params).2.disposeVariablesAttempted = true ∧
    (trainModel env params).2.xsDisposed = false ∧
    (trainModel env params).2.ysDisposed = false ∧
    (trainModel env params).2.modelDisposed = false := by
  rw [trainModel_fit_error env params ds e hload hfit]
  exact ⟨rfl, rfl, rfl, rfl, rfl⟩

/-- C7: every successful run fits with the configured batch size clamped to
16 (the fit options record `min batchSize 16`), and the returned metadata
reports that clamped batch size together with the configured epoch count. -/
theorem c7_batch_clamp (env : Env) (params : TrainModelParams) (r : TrainModelResult)
    (h : (trainModel env params).1 = Except.ok r) :
    r.metadata.batchSize = min params.trainingParams.batchSize 16 ∧
    r.metadata.epochs = params.trainingParams.epochs ∧
    (trainModel env params).2.fitConfig = some (fitConfigOf params.trainingParams) ∧
    (fitConfigOf params.trainingParams).batchSize =
      min params.trainingParams.batchSize 16 := by
  cases hl : loadDataFromDirectory env.rand params.trainingDataDir with
  | error e =>
    rw [trainModel_load_error env params e hl] at h
    simp at h
  | ok ds =>
    cases hf : env.fit (selectedModel env params ds) ds (fitConfigOf params.trainingParams) with
    | error e =>
      rw [trainModel_fit_error env params ds e hl hf] at h
      simp at h
    | ok hist =>
      cases hb : env.createModelBundle (selectedModel env params ds) with
      | error e =>
        rw [trainModel_bundle_error env params ds hist e hl hf hb] at h
        simp at h
      | ok blob =>
        have htm := trainModel_success env params ds hist blob hl hf hb
        rw [htm] at h
        simp only [Except.ok.injEq] at h
        subst h
        rw [htm]
        exact ⟨rfl, rfl, rfl, rfl⟩

/-- C8: the accuracy in the returned metadata is the pick of the fit
history that prefers the `acc` series and otherwise uses the `accuracy`
series: whenever `acc` is present its last entry is reported, and when
`acc` is absent but `accuracy` is present that series' last entry is
reported. -/
theorem c8_accuracy_key (env : Env) (params : TrainModelParams) (r : TrainModelResult)
    (h : (trainModel env params).1 = Except.ok r) :
    (∃ ds hist,
      loadDataFromDirectory env.rand params.trainingDataDir = Except.ok ds ∧
      env.fit (selectedModel env params ds) ds (fitConfigOf params.trainingParams) =
        Except.ok hist ∧
      r.metadata.accuracy = pickFinalAccuracy hist) ∧
    (∀ hist : FitHistory,
      (∀ l, hist.acc = some l → pickFinalAccuracy hist = l.getLast?) ∧
      (hist.acc = none → ∀ l, hist.accuracy = some l →
        pickFinalAccuracy hist = l.getLast?)) := by
  constructor
  · cases hl : loadDataFromDirectory env.rand params.trainingDataDir with
    | error e =>
      rw [trainModel_load_error env params e hl] at h
      simp at h
    | ok ds =>
      cases hf : env.fit (selectedModel env params ds) ds (fitConfigOf params.trainingParams) with
      | error e =>
        rw [trainModel_fit_error env params ds e hl hf] at h
        simp at h
      | ok hist =>
        cases hb : env.createModelBundle (selectedModel env params ds) with
        | error e =>
          rw [trainModel_bundle_error env params ds hist e hl hf hb] at h
          simp at h
        | ok blob =>
          rw [trainModel_success env params ds hist blob hl hf hb] at h
          simp only [Except.ok.injEq] at h
          subst h
          exact ⟨ds, hist, rfl, hf, rfl⟩
  · intro hist
    constructor
    · intro l hacc
      simp [pickFinalAccuracy, hacc]
    · intro hacc l haccuracy
      simp [pickFinalAccuracy, hacc, haccuracy]

/-- C9: a contribution record is only ever created when, after extraction,
`model.json` is present and every weight path of its manifest is present
among the extracted files; and whenever extraction succeeded but that
validation fails, the handler answers 400, removes the contribution
directory, and creates no record. -/
theorem c9_contribution_validation (req : ContribRequest) :
    ((contribute req).recordedHash ≠ none →
      req.zipExtractOk = true ∧
      "model.json" ∈ req.extractedEntries ∧
      ∃ doc, req.modelJsonDoc = some doc ∧
        missingWeights doc req.extractedEntries = []) ∧
    (reachesExtraction req = true → req.zipExtractOk = true →
      ("model.json" ∉ req.extractedEntries ∨
        req.modelJsonDoc = none ∨
        ∃ doc, req.modelJsonDoc = some doc ∧
          missingWeights doc req.extractedEntries ≠ []) →
      (contribute req).status = 400 ∧ (contribute req).dirRemoved = true ∧
        (contribute req).recordedHash = none) := by
  by_cases hp : req.projectFound
  case neg => simp [contribute, reachesExtraction, hp]
  by_cases hc : req.contributorFound
  case neg => simp [contribute, reachesExtraction, hp, hc]
  by_cases hauth : (req.isOwner || req.isCollaborator)
  case neg => simp [contribute, reachesExtraction, hp, hc, hauth]
  by_cases hfp : req.filePresent
  case neg => simp [contribute, reachesExtraction, hp, hc, hauth, hfp]
  by_cases hsh : req.sha1 = ""
  case pos => simp [contribute, reachesExtraction, hp, hc, hauth, hfp, hsh]
  by_cases hfa : req.fileDataAccessible
  case neg => simp [contribute, reachesExtraction, hp, hc, hauth, hfp, hsh, hfa]
  by_cases hzip : isZipFile req.fileBytes
  case neg => simp [contribute, reachesExtraction, hp, hc, hauth, hfp, hsh, hfa, hzip]
  by_cases hzo : req.zipExtractOk
  case neg =>
    by_cases hzf : req.zipErrorFormatMsg <;>
      simp [contribute, reachesExtraction, hp, hc, hauth, hfp, hsh, hfa, hzip, hzo, hzf]
  by_cases hcm : "model.json" ∈ req.extractedEntries
  case neg =>
    simp [contribute, reachesExtraction, hp, hc, hauth, hfp, hsh, hfa, hzip, hzo, hcm]
  rcases hmj : req.modelJsonDoc with _ | doc
  · simp [contribute, reachesExtraction, hp, hc, hauth, hfp, hsh, hfa, hzip, hzo, hcm, hmj]
  by_cases hmw : missingWeights doc req.extractedEntries = []
  case neg =>
    simp [contribute, reachesExtraction, hp, hc, hauth, hfp, hsh, hfa, hzip, hzo, hcm,
      hmj, hmw]
  have hfalse : ¬("model.json" ∉ req.extractedEntries ∨
      (some doc : Option ModelJsonDoc) = none ∨
      ∃ doc', (some doc : Option ModelJsonDoc) = some doc' ∧
        missingWeights doc' req.extractedEntries ≠ []) := by
    rintro (hcf | hmn | ⟨doc', hde, hne⟩)
    · exact hcf hcm
    · simp at hmn
    · injection hde with hde
      subst hde
      exact hne hmw
  exact ⟨fun _ => ⟨hzo, hcm, ⟨doc, rfl, hmw⟩⟩, fun _ _ hdis => absurd hdis hfalse⟩

/-- C10: the accept/reject decision never looks at the hash value: any two
non-empty `sha1` strings produce the same status and the same
record-creation outcome on otherwise identical requests (in particular the
digest of the uploaded bytes is never recomputed or compared), and the
supplied string is used only verbatim as the stored record hash and as the
contribution directory name. -/
theorem c10_sha1_unverified (req : ContribRequest) (s1 s2 : String)
    (h1 : s1 ≠ "") (h2 : s2 ≠ "") :
    (contribute { req with sha1 := s1 }).status =
      (contribute { req with sha1 := s2 }).status ∧
    ((contribute { req with sha1 := s1 }).recordedHash).isSome =
      ((contribute { req with sha1 := s2 }).recordedHash).isSome ∧
    (∀ h, (contribute { req with sha1 := s1 }).recordedHash = some h → h = s1) ∧
    (∀ d, (contribute { req with sha1 := s1 }).dirName = some d →
      d = s1 ++ ".tfjs") := by
  by_cases hp : req.projectFound
  case neg => simp [contribute, hp]
  by_cases hc : req.contributorFound
  case neg => simp [contribute, hp, hc]
  by_cases hauth : (req.isOwner || req.isCollaborator)
  case neg => simp [contribute, hp, hc, hauth]
  by_cases hfp : req.filePresent
  case neg => simp [contribute, hp, hc, hauth, hfp]
  by_cases hfa : req.fileDataAccessible
  case neg => simp [contribute, hp, hc, hauth, hfp, h1, h2, hfa]
  by_cases hzip : isZipFile req.fileBytes
  case neg => simp [contribute, hp, hc, hauth, hfp, h1, h2, hfa, hzip]
  by_cases hzo : req.zipExtractOk
  case neg =>
    by_cases hzf : req.zipErrorFormatMsg <;>
      simp [contribute, hp, hc, hauth, hfp, h1, h2, hfa, hzip, hzo, hzf]
  by_cases hcm : "model.json" ∈ req.extractedEntries
  case neg => simp [contribute, hp, hc, hauth, hfp, h1, h2, hfa, hzip, hzo, hcm]
  rcases hmj : req.modelJsonDoc with _ | doc
  · simp [contribute, hp, hc, hauth, hfp, h1, h2, hfa, hzip, hzo, hcm, hmj]
  by_cases hmw : missingWeights doc req.extractedEntries = []
  case neg =>
    simp [contribute, hp, hc, hauth, hfp, h1, h2, hfa, hzip, hzo, hcm, hmj, hmw]
  by_cases hex : req.execOk
  case neg =>
    simp [contribute, hp, hc, hauth, hfp, h1, h2, hfa, hzip, hzo, hcm, hmj, hmw, hex]
  by_cases hdb : req.dbOk
  case neg =>
    simp [contribute, hp, hc, hauth, hfp, h1, h2, hfa, hzip, hzo, hcm, hmj, hmw, hex, hdb]
  simp [contribute, hp, hc, hauth, hfp, h1, h2, hfa, hzip, hzo, hcm, hmj, hmw, hex, hdb]

/-! ## Concrete fixtures for the witnesses -/

/-- A one-image collection (directory `cats`) whose image decodes. -/
def wfile : JsFile := { path := ["cats", "c1.png"], ftype := "image/png", decoded := some 3 }

/-- An image file whose decode fails. -/
def wfileBad : JsFile := { path := ["cats", "c2.png"], ftype := "image/png", decoded := none }

/-- A configuration with an over-budget batch size of 64. -/
def wparams : TrainingParams :=
  { epochs := 3, batchSize := 64, learningRate := 1 / 1000, activationFunction := "relu"
    dropoutRate := 1 / 2, numLayers := 2, unitsPerLayer := 128 }

/-- Training arguments over the one-image collection, no prior artifact. -/
def wtmParams : TrainModelParams :=
  { trainingDataDir := [wfile], trainingParams := wparams, existingModel := none }

/-- Training arguments over a collection in which no image decodes. -/
def wtmParamsBad : TrainModelParams :=
  { trainingDataDir := [wfileBad], trainingParams := wparams, existingModel := none }

/-- The dataset the loader produces from `[wfile]`. -/
def wDs : Dataset := { xs := [3], ys := [[1]], numClasses := 1 }

/-- A fit history carrying the `acc` series. -/
def wHist : FitHistory := { loss := [5, 4], acc := some [6, 9], accuracy := none }

/-- An environment in which every oracle succeeds. -/
def wEnvOk : Env :=
  { rand := fun _ => 0
    loadTensorFlowJSModel := fun _ => Except.ok none
    fit := fun _ _ _ => Except.ok wHist
    createModelBundle := fun _ => Except.ok 11
    elapsed := 1234 }

/-- The same environment with a failing fit loop. -/
def wEnvFitFail : Env := { wEnvOk with fit := fun _ _ _ => Except.error (JsError.runtime "boom") }

/-- The result trainModel returns under `wEnvOk` and `wtmParams`. -/
def wResult : TrainModelResult :=
  { modelBlob := 11
    metadata :=
      { accuracy := some 9, loss := some 4, epochs := 3, batchSize := 16
        trainingTime := 1234 } }

/-- An authorized upload whose extracted archive lacks `model.json`. -/
def wReqBad : ContribRequest :=
  { projectFound := true, contributorFound := true, isOwner := true
    isCollaborator := false, filePresent := true, sha1 := "abc"
    fileDataAccessible := true, fileBytes := [0x50, 0x4B, 0x03, 0x04, 0x00]
    zipExtractOk := true, zipErrorFormatMsg := false
    extractedEntries := ["weights.bin"]
    modelJsonDoc := some { weightsManifest := some [{ paths := some ["weights.bin"] }] }
    execOk := true, dbOk := true }

/-- The same upload with a complete archive. -/
def wReqGood : ContribRequest := { wReqBad with extractedEntries := ["model.json", "weights.bin"] }

/-! ## Witnesses -/

/-- Witness for C2 at the one-image collection. -/
theorem c2_sample_budget_witness : wDs.xs.length = wDs.ys.length :=
  (c2_sample_budget (fun _ => 0) [wfile] wDs rfl).1

/-- Witness for C3 at the one-image collection. -/
theorem c3_label_map_witness :
    wDs.numClasses = (imageParentLabels [wfile]).toFinset.card :=
  (c3_label_map (fun _ => 0) [wfile] wDs rfl).1

/-- Witness for C4 at a collection whose only image fails to decode. -/
theorem c4_empty_dataset_witness :
    (trainModel wEnvOk wtmParamsBad).1 = Except.error JsError.emptyDataset :=
  (c4_empty_dataset wEnvOk wtmParamsBad (by decide)).1

/-- Witness for C5 at a throwing deserializer. -/
theorem c5_resume_fallback_witness :
    selectModel (Except.error (JsError.runtime "bad header")) 4 wparams =
      TFModel.fromArch (createModel 4 wparams) :=
  (c5_resume_fallback (Except.error (JsError.runtime "bad header")) 4 wparams).1
    (JsError.runtime "bad header") rfl

/-- Witness for C6 at a failing fit loop. -/
theorem c6_fit_failure_witness :
    (trainModel wEnvFitFail wtmParams).1 = Except.error (JsError.runtime "boom") :=
  (c6_fit_failure wEnvFitFail wtmParams wDs (JsError.runtime "boom") rfl rfl).1

/-- Witness for C7 at batch size 64, clamped to 16. -/
theorem c7_batch_clamp_witness : wResult.metadata.batchSize = min wparams.batchSize 16 :=
  (c7_batch_clamp wEnvOk wtmParams wResult rfl).1

/-- Witness for C8 at a history carrying `acc`. -/
theorem c8_accuracy_key_witness : pickFinalAccuracy wHist = [6, 9].getLast? :=
  ((c8_accuracy_key wEnvOk wtmParams wResult rfl).2 wHist).1 [6, 9] rfl

/-- Witness for C9 at an archive lacking `model.json`. -/
theorem c9_contribution_validation_witness :
    (contribute wReqBad).status = 400 ∧ (contribute wReqBad).dirRemoved = true ∧
      (contribute wReqBad).recordedHash = none :=
  (c9_contribution_validation wReqBad).2 (by decide) rfl (Or.inl (by decide))

/-- Witness for C10 at two different non-empty hashes. -/
theorem c10_sha1_unverified_witness :
    (contribute { wReqGood with sha1 := "aaa" }).status =
      (contribute { wReqGood with sha1 := "bbb" }).status :=
  (c10_sha1_unverified wReqGood "aaa" "bbb" (by decide) (by decide)).1
